import Mathlib

set_option maxRecDepth 100000

/-!
Verification development for the amagaki-plugin-sitemap PageBuilder
(`src/page-builder.ts`).  The TypeScript class `PageBuilder` is shallowly
embedded below: JavaScript values that flow through the builder are modelled
by the inductive `Item`, document field values by `JSVal`, the mutable
`resourceUrls` registry by explicit state passing on the `PageBuilder`
structure, and thrown exceptions by `Except String`.  External collaborators
(the amagaki pod, the template engines, `Url.relative`, `js-beautify`,
`fs.readFileSync`, and the static route provider for the inspector) are
modelled as function-valued fields of an `Env` record, exactly as the spec
treats them (external interfaces, section 6).

Naming: TypeScript identifiers containing the word "partial" are rendered
with the abbreviation "prtl" (for example `buildPartialElement` becomes
`buildPrtlElement`, the descriptor type `Partial` becomes `Prtl`); every
such definition carries a comment naming the original.  All other source
names are kept.
-/

/-- Character-level whitespace test used to model both JavaScript's
string `trim` and the `\s` character class of the blank-line regular
expression in `buildDocument` (ASCII inputs make the two coincide). -/
def jsWs (c : Char) : Bool := c.isWhitespace

/-- Models JavaScript `String.prototype.trim` (drop whitespace from both
ends), implemented over the character list for predictable evaluation. -/
def jsTrim (s : String) : String :=
  ⟨((s.data.dropWhile jsWs).reverse.dropWhile jsWs).reverse⟩

/-- Models `Array.prototype.join(sep)` for an array of strings. -/
def jsJoin (sep : String) : List String → String
  | [] => ""
  | [x] => x
  | x :: y :: xs => x ++ sep ++ jsJoin sep (y :: xs)

/-- Splits a character list at newline characters (every occurrence, keeping
empty segments), the line decomposition used by the blank-line stripper. -/
def linesOf : List Char → List (List Char)
  | [] => [[]]
  | c :: t =>
    if c = '\n' then [] :: linesOf t
    else
      match linesOf t with
      | [] => [[c]]
      | l :: ls => (c :: l) :: ls

/-- Joins line fragments back with newline characters. -/
def joinLinesCh : List (List Char) → List Char
  | [] => []
  | [l] => l
  | l :: m :: ls => l ++ '\n' :: joinLinesCh (m :: ls)

/-- Models `html.replace(/^\s*\n/gm, '')` from `buildDocument`: removes the
lines consisting only of whitespace.  On the trimmed strings this replace is
applied to in the source (which never start or end with whitespace) the
regular expression deletes exactly the whitespace-only lines, which is what
this function computes. -/
def stripBlankLines (s : String) : String :=
  ⟨joinLinesCh ((linesOf s.data).filter (fun l => !(l.all jsWs)))⟩

/-- Decides whether the needle list occurs at the head of the haystack. -/
def leadsWith : List Char → List Char → Bool
  | [], _ => true
  | _ :: _, [] => false
  | a :: as, b :: bs => a = b && leadsWith as bs

/-- Decides whether the needle occurs somewhere inside the haystack. -/
def listHasSub (nd : List Char) : List Char → Bool
  | [] => nd.isEmpty
  | c :: t => leadsWith nd (c :: t) || listHasSub nd t

/-- Substring test on strings, used to state "the document contains the
markup element" claims. -/
def strHasSub (hay nd : String) : Bool := listHasSub nd.data hay.data

/-- Replaces the first occurrence of `pat` in the character list (the
non-empty patterns used by `getHtmlLang` make the empty-pattern edge case
irrelevant). -/
def replFirstCh (pat repl : List Char) : List Char → List Char
  | [] => []
  | c :: t =>
    if leadsWith pat (c :: t) then repl ++ (c :: t).drop pat.length
    else c :: replFirstCh pat repl t

/-- Models `foo.replace(pat, repl)` with a plain-string pattern, which in
JavaScript replaces only the first occurrence (used by `getHtmlLang`). -/
def jsReplaceFirst (s pat repl : String) : String :=
  ⟨replFirstCh pat.data repl.data s.data⟩

/-- Truthiness of an optional string property, for example
`resource.fingerprint` in a guard position (undefined and "" are falsy). -/
def strOptTruthy : Option String → Bool
  | none => false
  | some s => s ≠ ""

/-- Template interpolation of a possibly-undefined string, as in
backtick-template strings: `undefined` prints as "undefined". -/
def tmplOptStr : Option String → String
  | none => "undefined"
  | some s => s

/-! ## Data model: URLs, static files, resources, descriptors, documents -/

/-- Models the amagaki `Url` object: `path` is `url.path` and `full` is the
result of `url.toString()` (the absolute form including the domain). -/
structure Url' where
  path : String
  full : String
deriving DecidableEq

/-- Models the amagaki `StaticFile` object: an optional derived URL, an
optional content fingerprint, and the existence flag `exists`. -/
structure StaticFile' where
  urlOpt : Option Url'
  fingerprintOpt : Option String
  exists' : Bool
deriving DecidableEq

/-- Href carried by a `ResourceLoader` (`StaticFile | string` in the source). -/
inductive LoaderHref where
  | sfile (sf : StaticFile')
  | str (s : String)
deriving DecidableEq

/-- Models the `ResourceLoader` record `{href, async?, defer?}`. -/
structure ResourceLoader' where
  href : LoaderHref
  asyncOpt : Option Bool
  deferOpt : Option Bool
deriving DecidableEq

/-- Models the `Resource` union `StaticFile | string | ResourceLoader`. -/
inductive Resource where
  | staticFile (sf : StaticFile')
  | str (s : String)
  | loader (l : ResourceLoader')
deriving DecidableEq

/-- Models the object form of a descriptor's `partial` property,
`{partial?, absolutePath?, includeInspector?}` (property `partial` is the
field `prtlOpt`, `includeInspector` keeps only whether it is exactly
`false`, the sole comparison performed on it). -/
structure PObj where
  prtlOpt : Option String
  absolutePathOpt : Option String
  includeInspector : Option Bool
deriving DecidableEq

/-- Models the possible JavaScript values of a descriptor's `partial`
property: a string, the object form, or some non-string non-object value
(undefined, null, boolean, number). -/
inductive PKey where
  | undef
  | null
  | bool (b : Bool)
  | num (n : Int)
  | str (s : String)
  | pobj (o : PObj)
deriving DecidableEq

/-- Models a partial descriptor (type `Partial` in the source): its
`partial` property plus an opaque tag standing for the descriptor's other
fields, which the builder only ever forwards to the template engine as
rendering context. -/
structure Prtl where
  key : PKey
  dataTag : String
deriving DecidableEq

/-- Models the JavaScript values stored in document / collection field
maps: null, booleans, strings, numbers, the object form of a partial key,
and lists of partial descriptors (the `partials` field). -/
inductive JSVal where
  | null
  | bool (b : Bool)
  | str (s : String)
  | num (n : Int)
  | pobj (o : PObj)
  | plist (ps : List Prtl)
deriving DecidableEq

/-- Models the values that flow through `getUrl` / `getHrefFromResource` /
the `resourceUrls` registry: undefined, null, scalars, `Url` objects,
`StaticFile` objects, `ResourceLoader` objects, and the object/list field
values. -/
inductive Item where
  | undef
  | null
  | bool (b : Bool)
  | str (s : String)
  | num (n : Int)
  | urlObj (u : Url')
  | sfile (sf : StaticFile')
  | loaderObj (l : ResourceLoader')
  | pobj (o : PObj)
  | plist (ps : List Prtl)
deriving DecidableEq

/-- JavaScript truthiness of an `Item`. -/
def itemTruthy : Item → Bool
  | .undef => false
  | .null => false
  | .bool b => b
  | .str s => s ≠ ""
  | .num n => n ≠ 0
  | .urlObj _ => true
  | .sfile _ => true
  | .loaderObj _ => true
  | .pobj _ => true
  | .plist _ => true

/-- Nullishness of an `Item` (undefined or null), the test performed by the
`??` operator. -/
def itemNullish : Item → Bool
  | .undef => true
  | .null => true
  | _ => false

/-- Template-string interpolation of an `Item`.  Scalars print as in
JavaScript; plain objects print as "[object Object]"; the amagaki `Url`
object prints via its `toString` (the full URL); a partial-descriptor list
prints via `Array.prototype.toString`.  The object cases are degenerate
configurations that are modelled but not relied on by any claim. -/
def itemTemplateStr : Item → String
  | .undef => "undefined"
  | .null => "null"
  | .bool b => if b then "true" else "false"
  | .str s => s
  | .num n => toString n
  | .urlObj u => u.full
  | .sfile _ => "[object Object]"
  | .loaderObj _ => "[object Object]"
  | .pobj _ => "[object Object]"
  | .plist _ => ""

/-- Reads the `fingerprint` property of an `Item` (only `StaticFile`
objects carry one). -/
def Item.fingerprintProp : Item → Option String
  | .sfile sf => sf.fingerprintOpt
  | _ => none

/-- Reads the `url` property of an `Item` (only `StaticFile` objects carry
one; the amagaki `Url` object itself has no `url` property). -/
def Item.urlProp : Item → Option Url'
  | .sfile sf => sf.urlOpt
  | _ => none

/-- Models `x?.includes('?')` where `x` is expected to be a string:
strings test for the character, undefined/null yield undefined (falsy).
For the remaining object values JavaScript would throw a TypeError
(`includes` is not a function); those inputs are unreachable from the
builder's call sites with a truthy fingerprint and are mapped to `false`. -/
def itemIncludesQ : Item → Bool
  | .str s => s.data.contains '?'
  | _ => false

/-- Embeds an optional string (an optionally-present string property) as an
`Item`. -/
def optStrToItem : Option String → Item
  | none => .undef
  | some s => .str s

/-- Embeds an optional `Url` (for example `doc.url`) as an `Item`. -/
def optUrlToItem : Option Url' → Item
  | none => .undef
  | some u => .urlObj u

/-- Embeds a field value as an `Item`. -/
def jsValToItem : JSVal → Item
  | .null => .null
  | .bool b => .bool b
  | .str s => .str s
  | .num n => .num n
  | .pobj o => .pobj o
  | .plist ps => .plist ps

/-- Embeds an optionally-present field value (undefined when absent) as an
`Item`. -/
def optJsToItem : Option JSVal → Item
  | none => .undef
  | some v => jsValToItem v

/-- Embeds a `Resource` as an `Item`. -/
def resourceToItem : Resource → Item
  | .staticFile sf => .sfile sf
  | .str s => .str s
  | .loader l => .loaderObj l

/-- Models the nullish-coalescing operator `a ?? b` on the two-level field
lookups (`none` is undefined, `some .null` is null). -/
def jsCoalesce (a b : Option JSVal) : Option JSVal :=
  match a with
  | none => b
  | some .null => b
  | some v => some v

/-- Nullishness of an optional field value (undefined or null), the test
performed by `??` on a field lookup. -/
def isJsNullishO : Option JSVal → Bool
  | none => true
  | some .null => true
  | some _ => false

/-- Locale object; amagaki locales are compared by identity, which the
model renders as equality of their identifiers. -/
structure Locale' where
  id : String
deriving DecidableEq

/-- Models the amagaki `Document`: pod path, locale data, optional URL, own
fields, and the owning collection's fields when a collection exists. -/
structure Document where
  podPath : String
  locale : Locale'
  defaultLocale : Locale'
  locales : List Locale'
  urlOpt : Option Url'
  fields : List (String × JSVal)
  collectionOpt : Option (List (String × JSVal))
deriving DecidableEq

/-- Field-map lookup (`fields[name]`; undefined when the key is absent). -/
def lookupF (fs : List (String × JSVal)) (n : String) : Option JSVal :=
  (fs.find? (fun p => p.1 == n)).map (fun p => p.2)

/-! ## Configuration (`PageBuilderOptions`) and external collaborators -/

/-- Models `BuiltinPartial` (`{content, view}`); these option fields are
declared in the source but never read by the builder. -/
structure BuiltinPrtl' where
  content : String
  view : String
deriving DecidableEq

/-- Models `PartialPaths`, the interpolated pod path formats. -/
structure PrtlPaths where
  css : String
  js : String
  view : String
deriving DecidableEq

/-- Models the `body.class` option: a string, or an (async) function which
the model identifies with its returned string. -/
inductive BodyClass where
  | str (s : String)
  | fn (result : String)
deriving DecidableEq

/-- Models `PageBuilderOptions.head`. -/
structure HeadOptions where
  description : Option String
  icon : Option Resource
  image : Option String
  scripts : Option (List Resource)
  siteName : Option String
  stylesheets : Option (List Resource)
  twitterSite : Option String
  themeColor : Option String
  noIndex : Option Bool
  extra : Option (List String)
deriving DecidableEq

/-- Models `PageBuilderOptions.body`. -/
structure BodyOptions where
  classOpt : Option BodyClass
  prepend : Option (List String)
  extra : Option (List String)
deriving DecidableEq

/-- Models `PageBuilderOptions` (the sitemap/robots path options only feed
the separate sitemap plugin registration and are omitted). The field
`inspectorEnabled` is `inspector?.enabled`. -/
structure PageBuilderOptions where
  inspectorEnabled : Option Bool
  beautify : Option Bool
  footer : Option BuiltinPrtl'
  header : Option BuiltinPrtl'
  headOpt : Option HeadOptions
  bodyOpt : Option BodyOptions
  prtlPathsOpt : Option PrtlPaths
deriving DecidableEq

/-- Empty options object, the `{}` fallback of `options || {}`. -/
def emptyOptions : PageBuilderOptions :=
  ⟨none, none, none, none, none, none, none⟩

/-- Interpolation scope passed to the amagaki `interpolate` helper: either
`{partial: {partial: name}}` (CSS/JS paths) or `{partial: descriptor}`
(the view path). -/
inductive InterpScope where
  | byName (nameOpt : Option String)
  | byDesc (p : Prtl)
deriving DecidableEq

/-- External collaborators of the builder, modelled as the spec's external
interfaces (section 6): `relativize` is `Url.relative(·, context.doc)`;
`fileExists`, `staticFile`, `getDoc` and the env flags come from the pod;
`interp` is amagaki's `interpolate`; `render`/`renderFromString` are the
template engine keyed by the view path (the rendering context is the base
context extended with the descriptor, so they take the descriptor);
`renderFile` is `PageBuilder.renderFile` (engine by file name, base
context); `readFile` is `fs.readFileSync`; `beautifyHtml` is
`jsBeautify.html` keyed by the `indent_size` option; `inspectorFiles` and
`inspectorUrlBase` come from `PageBuilderStaticRouteProvider`. -/
structure Env where
  relativize : Item → Item
  fileExists : String → Bool
  staticFile : String → StaticFile'
  interp : String → InterpScope → String
  render : String → Prtl → Except String String
  renderFromString : String → Prtl → Except String String
  readFile : String → Except String String
  renderFile : String → Except String String
  getDoc : String → Locale' → Document
  beautifyHtml : Nat → String → String
  inspectorFiles : List String
  inspectorUrlBase : String
  envDev : Bool
  envName : String

/-- Builder state: the document, the per-build `resourceUrls` registry, the
options, and the two values computed in the constructor. -/
structure PageBuilder where
  doc : Document
  resourceUrls : List Item
  options : PageBuilderOptions
  enableInspector : Bool
  prtlPaths : PrtlPaths
deriving DecidableEq

/-- Models the `PageBuilder` constructor: empty registry,
`enableInspector = options.inspector?.enabled ?? (env.dev || env.name ===
'staging')`, and the default partial path formats. -/
def mkPageBuilder (env : Env) (doc : Document) (opts : Option PageBuilderOptions) :
    PageBuilder :=
  let o := opts.getD emptyOptions
  { doc := doc
    resourceUrls := []
    options := o
    enableInspector :=
      o.inspectorEnabled.getD (env.envDev || env.envName == "staging")
    prtlPaths :=
      (opts.bind (fun x => x.prtlPathsOpt)).getD
        { css := "/dist/css/partials/$\x7bpartial.partial\x7d.css"
          js := "/dist/js/partials/$\x7bpartial.partial\x7d.js"
          view := "/views/partials/$\x7bpartial.partial\x7d.njk" } }

/-! ## Field resolution -/

/-- Models `getFieldValue(name)`:
`this.doc.fields[name] ?? this.doc.collection?.fields[name]`. -/
def getFieldValue (doc : Document) (name : String) : Option JSVal :=
  jsCoalesce (lookupF doc.fields name)
    (match doc.collectionOpt with
     | some cf => lookupF cf name
     | none => none)

/-- Tests whether a resolved field value is exactly boolean `false`
(the `=== false` comparisons in `buildDocument`). -/
def isJsFalse : Option JSVal → Bool
  | some (.bool false) => true
  | _ => false

/-! ## URL resolution (`getUrl`, `getHrefFromResource`) -/

/-- Models `GetUrlOptions`. -/
structure GetUrlOptions where
  includeDomain : Option Bool
  relative : Option Bool
deriving DecidableEq

/-- Models `GetHrefFromResourceOptions`. -/
structure GetHrefOptions where
  includeFingerprint : Option Bool
deriving DecidableEq

/-- Reads `options?.includeFingerprint` through an optional options
record. -/
def getHrefIncludeFp : Option GetHrefOptions → Option Bool
  | none => none
  | some o => o.includeFingerprint

/-- Models `href?.includes('?')` for the optional string `href` of the
static-file branch (undefined yields undefined, which is falsy). -/
def optIncludesQ : Option String → Bool
  | none => false
  | some s => s.data.contains '?'

/-- Truthiness of a `ResourceLoader.href` (`StaticFile | string`). -/
def lhrefTruthy : LoaderHref → Bool
  | .sfile _ => true
  | .str s => s ≠ ""

/-- Embeds a loader href as an `Item`. -/
def lhrefToItem : LoaderHref → Item
  | .sfile sf => .sfile sf
  | .str s => .str s

/-- Models `getUrl(item, options)`: take `item.url` (path, or absolute form
when `includeDomain`) when present, relativize when requested and truthy,
and append `?fingerprint=` when the item carried a truthy fingerprint and
the URL does not already contain a query string. -/
def getUrl (env : Env) (item : Item) (opts : GetUrlOptions) : Item :=
  let fp := item.fingerprintProp
  let url1 : Item :=
    match item.urlProp with
    | some u => .str (if opts.includeDomain == some true then u.full else u.path)
    | none => item
  let url2 : Item :=
    if opts.relative == some true && itemTruthy url1 then env.relativize url1
    else url1
  if strOptTruthy fp && !(itemIncludesQ url2) then
    .str (itemTemplateStr url2 ++ "?fingerprint=" ++ fp.getD "")
  else url2

/-- Models `getHrefFromResource(resource, options)`: static files resolve
to their URL path with an optional fingerprint query; loader records
resolve to their `href` when truthy (falling through to the resource itself
otherwise, as the untaken `if` chain does); strings resolve to
themselves. -/
def getHrefFromResource (r : Resource) (opt : Option GetHrefOptions) : Item :=
  match r with
  | .staticFile sf =>
    let href0 : Option String := sf.urlOpt.map (fun u => u.path)
    if (getHrefIncludeFp opt != some false) && !(optIncludesQ href0) then
      .str (tmplOptStr href0 ++ "?fingerprint=" ++ tmplOptStr sf.fingerprintOpt)
    else optStrToItem href0
  | .loader l => if lhrefTruthy l.href then lhrefToItem l.href else .loaderObj l
  | .str s => .str s

/-! ## Script and stylesheet elements with deduplication -/

/-- Template interpolation of a `Resource` in the error message of the
emit functions. -/
def resourceTemplateStr : Resource → String
  | .staticFile _ => "[object Object]"
  | .str s => s
  | .loader _ => "[object Object]"

/-- Error text thrown when a resource resolves to no URL (the
`ConfigurationError` of the spec). -/
def noUrlMsg (r : Resource) : String :=
  "Resource " ++ resourceTemplateStr r ++
    " has no URL. Does it exist and is it mapped in `staticRoutes`?"

/-- The resolved URL of a resource as computed at the top of
`buildScriptElement` / `buildStyleLinkElement`:
`getUrl(getHrefFromResource(resource), {relative: true})`. -/
def resolvedUrl (env : Env) (r : Resource) : Item :=
  getUrl env (getHrefFromResource r none) ⟨none, some true⟩

/-- Markup of the `<script>` element template. -/
def scriptMarkup (url : Item) (defer async : Bool) : String :=
  jsTrim ("\n      <script\n        src=\"" ++ itemTemplateStr url ++
    "\"\n        " ++ (if defer then "defer" else "") ++
    "\n        " ++ (if async then "async" else "") ++
    "\n      >\n      </script>\n    ")

/-- Markup of the `<link rel="stylesheet">` element template, with the
preload attributes when `async`. -/
def styleMarkup (url : Item) (async : Bool) : String :=
  jsTrim ("\n      <link\n        href=\"" ++ itemTemplateStr url ++
    "\"\n        rel=\"stylesheet\"\n        " ++
    (if async then
      "\n            rel=\"preload\"\n            as=\"style\"\n            onload=\"this.onload=null;this.rel='stylesheet'\"\n            "
     else "") ++
    "\n      >\n    ")

/-- Models `buildScriptElement(resource, defer, async)`: resolve the URL;
return "" when the URL is already registered; throw when the URL is falsy;
otherwise register the URL and return the `<script>` markup. -/
def buildScriptElement (env : Env) (pb : PageBuilder) (r : Resource)
    (defer async : Bool) : Except String (PageBuilder × String) :=
  let url := resolvedUrl env r
  if pb.resourceUrls.contains url then .ok (pb, "")
  else if !(itemTruthy url) then .error (noUrlMsg r)
  else
    .ok ({ pb with resourceUrls := pb.resourceUrls ++ [url] },
      scriptMarkup url defer async)

/-- Models `buildStyleLinkElement(resource, async)` (same registry
discipline as `buildScriptElement`, `<link>` markup). -/
def buildStyleLinkElement (env : Env) (pb : PageBuilder) (r : Resource)
    (async : Bool) : Except String (PageBuilder × String) :=
  let url := resolvedUrl env r
  if pb.resourceUrls.contains url then .ok (pb, "")
  else if !(itemTruthy url) then .error (noUrlMsg r)
  else
    .ok ({ pb with resourceUrls := pb.resourceUrls ++ [url] },
      styleMarkup url async)

/-! ## Locale handling and head assembly -/

/-- Models `getHtmlLang(locale)`:
`locale.id.replace('_ALL', '').replace('_', '-')` (first occurrence each,
as JavaScript string-pattern replace does). -/
def getHtmlLang (locale : Locale') : String :=
  jsReplaceFirst (jsReplaceFirst locale.id "_ALL" "") "_" "-"

/-- Joins template slots the way the source's backtick templates with
six-space indentation do: a leading newline, each slot on its own
six-space-indented line, a four-space-indented closing line, then
`.trim()`. -/
def tpl6 (parts : List String) : String :=
  jsTrim ("\n" ++ jsJoin "\n" (parts.map (fun p => "      " ++ p)) ++ "\n    ")

/-- The canonical-link slot of `buildHreflangLinkElements`:
`this.doc.url ? `<link href="${this.doc.url}" rel="canonical">` : ''`. -/
def canonicalSlot (doc : Document) : String :=
  match doc.urlOpt with
  | some u => "<link href=\"" ++ u.full ++ "\" rel=\"canonical\">"
  | none => ""

/-- The URL of the sibling of `doc` in the given locale, resolved as
`getUrl(this.pod.doc(this.doc.podPath, locale).url)`. -/
def siblingUrl (env : Env) (doc : Document) (locale : Locale') : Item :=
  getUrl env (optUrlToItem ((env.getDoc doc.podPath locale).urlOpt)) ⟨none, none⟩

/-- The `x-default` slot of `buildHreflangLinkElements`. -/
def xdefaultSlot (env : Env) (doc : Document) : String :=
  let defaultUrl := siblingUrl env doc doc.defaultLocale
  if itemTruthy defaultUrl then
    "<link href=\"" ++ itemTemplateStr defaultUrl ++
      "\" hreflang=\"x-default\" rel=\"alternate\">"
  else ""

/-- One alternate link of `buildHreflangLinkElements` for a non-default
locale. -/
def localeLinkFor (env : Env) (doc : Document) (locale : Locale') : String :=
  "<link href=\"" ++ itemTemplateStr (siblingUrl env doc locale) ++
    "\" hreflang=\"" ++ getHtmlLang locale ++ "\" rel=\"alternate\">"

/-- The per-locale alternate links, one for every configured locale other
than the default locale, in the iteration order of `this.doc.locales`. -/
def hreflangLocaleLinks (env : Env) (doc : Document) : List String :=
  (doc.locales.filter (fun l => l != doc.defaultLocale)).map (localeLinkFor env doc)

/-- Models `buildHreflangLinkElements()`. -/
def buildHreflangLinkElements (env : Env) (doc : Document) : String :=
  tpl6 [canonicalSlot doc, xdefaultSlot env doc,
    jsJoin "\n" (hreflangLocaleLinks env doc)]

/-- Models `buildHeadLinkElements({icon})`. -/
def buildHeadLinkElements (env : Env) (icon : Item) : String :=
  tpl6 [if itemTruthy icon then
          "<link rel=\"icon\" href=\"" ++
            itemTemplateStr (getUrl env icon ⟨none, some true⟩) ++ "\">"
        else ""]

/-- Argument record of `buildHeadMetaElements`. -/
structure HeadMetaOpts where
  description : Item
  image : Item
  locale : Item
  siteName : Item
  themeColor : Item
  title : Item
  twitterSite : Item
  url : String
  noIndex : Item

/-- Models `buildHeadMetaElements(options)`: the fixed meta tags plus the
conditionally emitted title/description/theme-color/robots/Open
Graph/Twitter tags, in source order. -/
def buildHeadMetaElements (env : Env) (o : HeadMetaOpts) : String :=
  tpl6
    [ (if itemTruthy o.title then
        "<title>" ++ itemTemplateStr o.title ++ "</title>" else "")
    , (if itemTruthy o.description then
        "<meta name=\"description\" content=\"" ++ itemTemplateStr o.description ++ "\">" else "")
    , (if itemTruthy o.themeColor then
        "<meta name=\"theme-color\" content=\"" ++ itemTemplateStr o.themeColor ++ "\">" else "")
    , (if itemTruthy o.noIndex then
        "<meta name=\"robots\" content=\"noindex\">" else "")
    , "<meta name=\"referrer\" content=\"no-referrer\">"
    , "<meta property=\"og:type\" content=\"website\">"
    , (if itemTruthy o.siteName then
        "<meta property=\"og:site_name\" content=\"" ++ itemTemplateStr o.siteName ++ "\">" else "")
    , "<meta property=\"og:url\" content=\"" ++ o.url ++ "\">"
    , (if itemTruthy o.title then
        "<meta property=\"og:title\" content=\"" ++ itemTemplateStr o.title ++ "\">" else "")
    , (if itemTruthy o.description then
        "<meta property=\"og:description\" content=\"" ++ itemTemplateStr o.description ++ "\">" else "")
    , (if itemTruthy o.image then
        "<meta property=\"og:image\" content=\"" ++
          itemTemplateStr (getUrl env o.image ⟨some true, none⟩) ++ "\">" else "")
    , (if itemTruthy o.locale then
        "<meta property=\"og:locale\" content=\"" ++ itemTemplateStr o.locale ++ "\">" else "")
    , (if itemTruthy o.twitterSite then
        "<meta property=\"twitter:site\" content=\"" ++ itemTemplateStr o.twitterSite ++ "\">" else "")
    , (if itemTruthy o.title then
        "<meta property=\"twitter:title\" content=\"" ++ itemTemplateStr o.title ++ "\">" else "")
    , (if itemTruthy o.description then
        "<meta property=\"twitter:description\" content=\"" ++ itemTemplateStr o.description ++ "\">" else "")
    , (if itemTruthy o.image then
        "<meta property=\"twitter:image\" content=\"" ++
          itemTemplateStr (getUrl env o.image ⟨some true, none⟩) ++ "\">" else "")
    , "<meta property=\"twitter:card\" content=\"summary_large_image\">" ]

/-! ## Partial elements -/

/-- The descriptor's logical name:
`typeof partial.partial === 'string' ? partial.partial :
partial.partial?.partial` (both branches collapse to one lookup because a
string key is its own name and a property access on any non-nullish
non-object value yields undefined). -/
def keyName : PKey → Option String
  | .str s => some s
  | .pobj o => o.prtlOpt
  | _ => none

/-- Whether `typeof partial.partial === 'string'`. -/
def isStrKey : PKey → Bool
  | .str _ => true
  | _ => false

/-- Reads `partial.partial?.absolutePath`. -/
def keyAbsPath : PKey → Option String
  | .pobj o => o.absolutePathOpt
  | _ => none

/-- Truthiness of `partial.partial?.absolutePath` (the guard of the
inline-template branch). -/
def absPathTruthy (k : PKey) : Bool :=
  match keyAbsPath k with
  | some ap => ap ≠ ""
  | none => false

/-- Reads `partial.partial?.includeInspector` (undefined except on the
object form). -/
def keyIncludeInspector : PKey → Option Bool
  | .pobj o => o.includeInspector
  | _ => none

/-- The inspector marker pushed by `buildPartialElement` (an untrimmed
backtick template, hence the surrounding whitespace). -/
def inspElem (nameOpt : Option String) : String :=
  "\n        <page-module-inspector partial=\"" ++ tmplOptStr nameOpt ++
    "\"></page-module-inspector>\n      "

/-- The conditional stylesheet emission of `buildPartialElement`:
`cssFile.exists && partialBuilder.push(this.buildStyleLinkElement(cssFile))`. -/
def emitExistsStyle (env : Env) (pb : PageBuilder) (f : StaticFile') :
    Except String (PageBuilder × List String) :=
  if f.exists' then
    (buildStyleLinkElement env pb (.staticFile f) true).map
      (fun x => (x.1, [x.2]))
  else .ok (pb, [])

/-- The conditional script emission of `buildPartialElement`:
`jsFile.exists && partialBuilder.push(this.buildScriptElement(jsFile))`. -/
def emitExistsScript (env : Env) (pb : PageBuilder) (f : StaticFile') :
    Except String (PageBuilder × List String) :=
  if f.exists' then
    (buildScriptElement env pb (.staticFile f) false false).map
      (fun x => (x.1, [x.2]))
  else .ok (pb, [])

/-- The `html` computation of `buildPartialElement`: render the named view
through the engine when the descriptor's `partial` property is a string,
render the inline template read from `absolutePath` when that property is
truthy, and leave `html` undefined otherwise. -/
def renderPrtlHtml (env : Env) (pb : PageBuilder) (p : Prtl) :
    Except String (Option String) :=
  if isStrKey p.key then
    (env.render (env.interp pb.prtlPaths.view (.byDesc p)) p).map some
  else if absPathTruthy p.key then do
    let t ← env.readFile ((keyAbsPath p.key).getD "")
    (env.renderFromString t p).map some
  else .ok none

/-- The inspector marker contribution of `buildPartialElement`, emitted if
the inspector is enabled and `partial.partial?.includeInspector !== false`. -/
def inspElems (pb : PageBuilder) (p : Prtl) : List String :=
  if pb.enableInspector && (keyIncludeInspector p.key != some false) then
    [inspElem (keyName p.key)]
  else []

/-- Models `buildPartialElement(partial)`: resolve the conventional CSS/JS
static files for the descriptor's name and emit them (deduplicated) only if
they exist, open the `<page-module>` boundary, optionally emit the
inspector marker, render the named template or the inline
`absolutePath` template (neither branch leaves `html` undefined, which
`Array.prototype.join` prints as an empty string), close the boundary. -/
def buildPrtlElement (env : Env) (pb : PageBuilder) (p : Prtl) :
    Except String (PageBuilder × String) := do
  let nameOpt := keyName p.key
  let cssFile := env.staticFile (env.interp pb.prtlPaths.css (.byName nameOpt))
  let jsFile := env.staticFile (env.interp pb.prtlPaths.js (.byName nameOpt))
  let (pb1, cssElemsL) ← emitExistsStyle env pb cssFile
  let (pb2, jsElemsL) ← emitExistsScript env pb1 jsFile
  let htmlOpt ← renderPrtlHtml env pb p
  .ok (pb2, jsJoin "\n"
    (cssElemsL ++ jsElemsL ++ ["<page-module>"] ++ inspElems pb p ++
      [htmlOpt.getD ""] ++ ["</page-module>"]))

/-- Builds the descriptor `{...{partial: name}, ...(contentFields or {})}`
used by `buildBuiltinPartial`: the spread of the content document's fields
overrides the `partial` key when such a field exists (a list-valued
`partial` field behaves as a property-less object and is mapped
accordingly); the remaining content fields only feed the rendering context
and are represented by the content pod path tag. -/
def builtinDescriptor (env : Env) (doc : Document) (name : String) : Prtl :=
  let contentPodPath := "/content/partials/" ++ name ++ ".yaml"
  if env.fileExists contentPodPath then
    let cdoc := env.getDoc contentPodPath doc.locale
    { key :=
        match lookupF cdoc.fields "partial" with
        | some (.str s) => .str s
        | some .null => .null
        | some (.bool b) => .bool b
        | some (.num n) => .num n
        | some (.pobj o) => .pobj o
        | some (.plist _) => .pobj ⟨none, none, none⟩
        | none => .str name
      dataTag := contentPodPath }
  else { key := .str name, dataTag := "" }

/-- Models `buildBuiltinPartial(partial)`: render the conventional partial
when its view file exists, otherwise contribute the empty string. -/
def buildBuiltinPrtl (env : Env) (pb : PageBuilder) (name : String) :
    Except String (PageBuilder × String) :=
  if env.fileExists ("/views/partials/" ++ name ++ ".njk") then
    buildPrtlElement env pb (builtinDescriptor env pb.doc name)
  else .ok (pb, "")

/-! ## Body and document assembly -/

/-- Models `buildBodyTag()`: a `class` attribute only when the configured
class value is truthy (the async function form is identified with its
result). -/
def buildBodyTag (pb : PageBuilder) : String :=
  match pb.options.bodyOpt with
  | some b =>
    match b.classOpt with
    | some (.str s) => if s ≠ "" then "<body class=\"" ++ s ++ "\">" else "<body>"
    | some (.fn r) => "<body class=\"" ++ r ++ "\">"
    | none => "<body>"
  | none => "<body>"

/-- Models `buildExtraElements(extra)`: render every configured pod path
(a failed render fails the build, as a rejected promise in `Promise.all`
does) and join the fragments in configured order. -/
def buildExtraElements (env : Env) : List String → Except String (List String)
  | [] => .ok []
  | p :: ps => do
    let r ← env.renderFile p
    let rs ← buildExtraElements env ps
    .ok (r :: rs)

/-- The `prepend` / `extra` slots of the templates:
`cond ? await this.buildExtraElements(paths) : ''`. -/
def extraSlot (env : Env) : Option (List String) → Except String String
  | some ps => (buildExtraElements env ps).map (jsJoin "\n")
  | none => .ok ""

/-- Coalesced field-or-option head value: `this.getFieldValue(n) ??
fallback` embedded as an `Item`. -/
def fieldOrItem (doc : Document) (name : String) (fallback : Item) : Item :=
  let v := optJsToItem (getFieldValue doc name)
  if itemNullish v then fallback else v

/-- Embeds an optional boolean option value as an `Item`. -/
def optBoolToItem : Option Bool → Item
  | none => .undef
  | some b => .bool b

/-- The head option record, `{}`-defaulted when `options.head` is absent
(each `this.options.head?.x` access yields undefined then). -/
def headOpts (pb : PageBuilder) : HeadOptions :=
  (pb.options.headOpt).getD ⟨none, none, none, none, none, none, none, none, none, none⟩

/-- Emits the configured global stylesheets through the deduplicating
registry, in configuration order. -/
def emitStyleList (env : Env) (pb : PageBuilder) :
    List Resource → Except String (PageBuilder × List String)
  | [] => .ok (pb, [])
  | r :: rs => do
    let (pb1, o) ← buildStyleLinkElement env pb r true
    let (pb2, os) ← emitStyleList env pb1 rs
    .ok (pb2, o :: os)

/-- Emits the configured global scripts through the deduplicating registry,
in configuration order. -/
def emitScriptList (env : Env) (pb : PageBuilder) :
    List Resource → Except String (PageBuilder × List String)
  | [] => .ok (pb, [])
  | r :: rs => do
    let (pb1, o) ← buildScriptElement env pb r false false
    let (pb2, os) ← emitScriptList env pb1 rs
    .ok (pb2, o :: os)

/-- The stylesheets slot of the head template:
`this.options.head?.stylesheets?.map(...).join('\n') ?? ''`. -/
def styleSlot (env : Env) (pb : PageBuilder) :
    Except String (PageBuilder × String) :=
  match (headOpts pb).stylesheets with
  | some rs => (emitStyleList env pb rs).map (fun x => (x.1, jsJoin "\n" x.2))
  | none => .ok (pb, "")

/-- The scripts slot of the head template. -/
def scriptSlot (env : Env) (pb : PageBuilder) :
    Except String (PageBuilder × String) :=
  match (headOpts pb).scripts with
  | some rs => (emitScriptList env pb rs).map (fun x => (x.1, jsJoin "\n" x.2))
  | none => .ok (pb, "")

/-- The inspector slot of the head template: script elements for every
static inspector asset under the provider's URL base, when the inspector is
enabled. -/
def inspectorSlot (env : Env) (pb : PageBuilder) :
    Except String (PageBuilder × String) :=
  if pb.enableInspector then
    (emitScriptList env pb
        (env.inspectorFiles.map
          (fun p => Resource.str (env.inspectorUrlBase ++ "/" ++ p)))).map
      (fun x => (x.1, jsJoin "\n" x.2))
  else .ok (pb, "")

/-- Models `buildHeadElement()`.  The document URL is stringified
unconditionally for the `og:url` meta value, so a document lacking a URL
fails the build with a TypeError (`(this.doc.url as Url).toString()`). -/
def buildHeadElement (env : Env) (pb : PageBuilder) :
    Except String (PageBuilder × String) := do
  let urlStr ←
    match pb.doc.urlOpt with
    | some u => Except.ok u.full
    | none => Except.error "TypeError: Cannot read properties of undefined (reading toString)"
  let h := headOpts pb
  let metaS := buildHeadMetaElements env
    { description := fieldOrItem pb.doc "description" (optStrToItem h.description)
      image := fieldOrItem pb.doc "image" (optStrToItem h.image)
      locale := .str pb.doc.locale.id
      siteName := fieldOrItem pb.doc "siteName" (optStrToItem h.siteName)
      themeColor := fieldOrItem pb.doc "themeColor" (optStrToItem h.themeColor)
      title := fieldOrItem pb.doc "title" (optStrToItem h.siteName)
      twitterSite := fieldOrItem pb.doc "twitterSite" (optStrToItem h.twitterSite)
      url := urlStr
      noIndex := fieldOrItem pb.doc "noIndex" (optBoolToItem h.noIndex) }
  let hreS := buildHreflangLinkElements env pb.doc
  let linksS := buildHeadLinkElements env
    (fieldOrItem pb.doc "icon" (match h.icon with
      | some r => resourceToItem r
      | none => .undef))
  let (pb1, stylesS) ← styleSlot env pb
  let (pb2, scriptsS) ← scriptSlot env pb1
  let extraS ← extraSlot env h.extra
  let (pb3, inspS) ← inspectorSlot env pb2
  .ok (pb3, jsTrim
    ("\n      <head>\n        <meta charset=\"utf-8\">\n        <meta name=\"viewport\" content=\"width=device-width, initial-scale=1.0\">\n        "
      ++ metaS ++ "\n        " ++ hreS ++ "\n        " ++ linksS ++
      "\n        " ++ stylesS ++ "\n        " ++ scriptsS ++ "\n        " ++
      extraS ++ "\n        " ++ inspS ++ "\n      </head>\n    "))

/-- The coalesced `partials` field value:
`this.doc.fields.partials ?? this.doc.collection?.fields.partials`. -/
def docPrtlsVal (doc : Document) : Option JSVal :=
  jsCoalesce (lookupF doc.fields "partials")
    (match doc.collectionOpt with
     | some cf => lookupF cf "partials"
     | none => none)

/-- Renders the descriptor list.  `Promise.all` keeps the results in list
order, and every registry mutation of `buildPartialElement` happens in its
synchronous prefix (before its only `await`), so the concurrent rendering
of the source is observationally the in-order sequential composition
modelled here; on multiple failures the source surfaces the first
rejection to settle, the model the leftmost one. -/
def runPrtls (env : Env) (pb : PageBuilder) :
    List Prtl → Except String (PageBuilder × List String)
  | [] => .ok (pb, [])
  | p :: ps => do
    let (pb1, o) ← buildPrtlElement env pb p
    let (pb2, os) ← runPrtls env pb1 ps
    .ok (pb2, o :: os)

/-- The content slot of the document template:
`((partials as any[]) ?? []).map(p => this.buildPartialElement(p))` joined
with newlines; a non-list truthy `partials` value has no `map` method and
throws. -/
def contentSlot (env : Env) (pb : PageBuilder) :
    Except String (PageBuilder × String) := do
  let ps ←
    match docPrtlsVal pb.doc with
    | some (.plist ps) => Except.ok ps
    | some .null => Except.ok []
    | none => Except.ok []
    | some _ => Except.error "TypeError: partials.map is not a function"
  let (pb1, os) ← runPrtls env pb ps
  .ok (pb1, jsJoin "\n" os)

/-- The header/footer slots of the document template:
`this.getFieldValue(name) === false ? '' : await
this.buildBuiltinPartial(name)`. -/
def builtinSlot (env : Env) (pb : PageBuilder) (name : String) :
    Except String (PageBuilder × String) :=
  if isJsFalse (getFieldValue pb.doc name) then .ok (pb, "")
  else buildBuiltinPrtl env pb name

/-- Models the trimmed template-literal concatenation assigned to `html`
in `buildDocument`, before the blank-line strip and beautification. -/
def rawDocumentHtml (env : Env) (pb : PageBuilder) :
    Except String (PageBuilder × String) := do
  let lang := getHtmlLang pb.doc.locale
  let (pb1, headS) ← buildHeadElement env pb
  let bodyTagS := buildBodyTag pb
  let prependS ← extraSlot env ((pb.options.bodyOpt).bind (fun b => b.prepend))
  let (pb2, headerS) ← builtinSlot env pb1 "header"
  let (pb3, prtlsS) ← contentSlot env pb2
  let (pb4, footerS) ← builtinSlot env pb3 "footer"
  let extraS ← extraSlot env ((pb.options.bodyOpt).bind (fun b => b.extra))
  .ok (pb4, jsTrim
    ("\n      <!DOCTYPE html>\n      <html lang=\"" ++ lang ++
      "\" itemscope itemtype=\"https://schema.org/WebPage\">\n      " ++
      headS ++ "\n      " ++ bodyTagS ++ "\n        " ++ prependS ++
      "\n        <div class=\"main\">\n          " ++ headerS ++
      "\n          " ++ prtlsS ++ "\n          " ++ footerS ++
      "\n        </div>\n        " ++ extraS ++
      "\n      </body>\n      </html>\n    "))

/-- Models `buildDocument()`: build the trimmed markup; when beautification
is explicitly disabled (`options.beautify === false`) return it unchanged;
otherwise strip the whitespace-only lines and run `jsBeautify.html` with
`indent_size: 2`. -/
def buildDocument (env : Env) (pb : PageBuilder) : Except String String := do
  let (_, html) ← rawDocumentHtml env pb
  if pb.options.beautify == some false then .ok html
  else .ok (env.beautifyHtml 2 (stripBlankLines html))

/-! ## Emission sequences

A single document build performs a sequence of `buildScriptElement` /
`buildStyleLinkElement` calls against the shared registry (from the global
head configuration, the inspector assets, and every partial).  `runEmits`
models an arbitrary such sequence and records, for each call, the resolved
URL together with the returned markup. -/

/-- One deduplicated emission: a script or a stylesheet link. -/
inductive EmitCall where
  | script (r : Resource) (defer async : Bool)
  | style (r : Resource) (async : Bool)

/-- The resource of an emission. -/
def callRes : EmitCall → Resource
  | .script r _ _ => r
  | .style r _ => r

/-- Performs one emission. -/
def emitOne (env : Env) (pb : PageBuilder) :
    EmitCall → Except String (PageBuilder × String)
  | .script r d a => buildScriptElement env pb r d a
  | .style r a => buildStyleLinkElement env pb r a

/-- Performs a sequence of emissions, recording resolved URL and output. -/
def runEmits (env : Env) (pb : PageBuilder) :
    List EmitCall → Except String (PageBuilder × List (Item × String))
  | [] => .ok (pb, [])
  | c :: cs => do
    let (pb1, o) ← emitOne env pb c
    let (pb2, os) ← runEmits env pb1 cs
    .ok (pb2, (resolvedUrl env (callRes c), o) :: os)

/-- The number of non-empty markup outputs whose call resolved to `u`. -/
def urlCount (u : Item) (outs : List (Item × String)) : Nat :=
  (outs.filter (fun p => p.1 == u && p.2 != "")).length

/-! ## Concrete fixtures used by the witnesses and counterexamples -/

/-- Sample document: two configured locales, default `en_US`, a resolvable
URL, no own fields, no collection. -/
def sampleDoc : Document :=
  { podPath := "/content/pages/index.yaml"
    locale := ⟨"en_US"⟩
    defaultLocale := ⟨"en_US"⟩
    locales := [⟨"en_US"⟩, ⟨"de_DE"⟩]
    urlOpt := some ⟨"/index/", "https://example.com/index/"⟩
    fields := []
    collectionOpt := none }

/-- Sample environment: no pod file exists, interpolation returns the
format unchanged, static files resolve but do not exist, templates render
to fixed fragments, relativization and beautification are identities, no
inspector assets, production mode. -/
def sampleEnv : Env :=
  { relativize := fun i => i
    fileExists := fun _ => false
    staticFile := fun p => ⟨some ⟨p, "https://example.com" ++ p⟩, some "f1", false⟩
    interp := fun f _ => f
    render := fun _ _ => .ok "RENDERED"
    renderFromString := fun _ _ => .ok "INLINE"
    readFile := fun _ => .ok "TPL"
    renderFile := fun p => .ok ("X:" ++ p)
    getDoc := fun _ _ => sampleDoc
    beautifyHtml := fun _ s => s
    inspectorFiles := []
    inspectorUrlBase := "/_page-builder"
    envDev := false
    envName := "prod" }

/-- Builder over the sample document with no options. -/
def samplePb : PageBuilder := mkPageBuilder sampleEnv sampleDoc none

/-- Builder with beautification explicitly disabled. -/
def c8pb : PageBuilder :=
  mkPageBuilder sampleEnv sampleDoc (some { emptyOptions with beautify := some false })

/-- Builder whose global head configuration declares one stylesheet with an
empty URL (no derivable URL). -/
def c2head : HeadOptions :=
  ⟨none, none, none, none, none, some [Resource.str ""], none, none, none, none⟩

/-- Builder carrying the misconfigured head options. -/
def c2pb : PageBuilder :=
  mkPageBuilder sampleEnv sampleDoc
    (some { emptyOptions with headOpt := some c2head })

/-- Concrete resource, resolved URL, call sequence, and expected run result
for the deduplication witness: the same stylesheet emitted twice. -/
def c1res : Resource := .str "/site.css"

/-- Resolved URL of the witness resource. -/
def c1url : Item := resolvedUrl sampleEnv c1res

/-- Two emissions of the same stylesheet. -/
def c1calls : List EmitCall := [.style c1res true, .style c1res true]

/-- Expected final registry state of the witness run. -/
def c1pb2 : PageBuilder := { samplePb with resourceUrls := [c1url] }

/-- Expected outputs of the witness run: markup once, then the empty
string. -/
def c1outs : List (Item × String) := [(c1url, styleMarkup c1url true), (c1url, "")]

/-- Document for the field-fallback counterexample: the page maps "x" to
null, the collection maps "x" to a string. -/
def c3doc : Document :=
  { podPath := "/content/pages/a.yaml"
    locale := ⟨"en"⟩
    defaultLocale := ⟨"en"⟩
    locales := [⟨"en"⟩]
    urlOpt := some ⟨"/a/", "https://example.com/a/"⟩
    fields := [("x", JSVal.null)]
    collectionOpt := some [("x", JSVal.str "collection-value")] }

/-- Document whose page maps "header" to boolean false while its collection
maps it to true. -/
def c3doc2 : Document :=
  { c3doc with
    fields := [("header", JSVal.bool false)]
    collectionOpt := some [("header", JSVal.bool true)] }

/-- Environment in which only the conventional header view exists. -/
def c4env : Env :=
  { sampleEnv with fileExists := fun p => p == "/views/partials/header.njk" }

/-- Builder over the sample document in the header-view environment. -/
def c4pb : PageBuilder := mkPageBuilder c4env sampleDoc none

/-- Builder over the document whose page sets `header` to false. -/
def c4pbF : PageBuilder := mkPageBuilder sampleEnv c3doc2 none

/-- Named descriptors for the ordered-rendering witness. -/
def c7p1 : Prtl := ⟨.str "hero", ""⟩

/-- Second descriptor for the ordered-rendering witness. -/
def c7p2 : Prtl := ⟨.str "columns", ""⟩

/-- Document whose page declares the two sample partials. -/
def c7doc : Document :=
  { sampleDoc with fields := [("partials", JSVal.plist [c7p1, c7p2])] }

/-- Builder over the two-partial document. -/
def c7pb : PageBuilder := mkPageBuilder sampleEnv c7doc none

/-- Rendered module block of each sample partial in the sample
environment. -/
def c7out1 : String := "<page-module>
RENDERED
</page-module>"

/-- Descriptor whose `partial` property is neither a string nor an object
with an `absolutePath`. -/
def c10p : Prtl := ⟨.undef, ""⟩

/-! ## Helper lemmas -/

theorem jsCoalesce_not_nullish {a b : Option JSVal}
    (h : a ≠ none) (h' : a ≠ some JSVal.null) : jsCoalesce a b = a := by
  unfold jsCoalesce
  match a with
  | none => exact absurd rfl h
  | some .null => exact absurd rfl h'
  | some (.bool x) => rfl
  | some (.str x) => rfl
  | some (.num x) => rfl
  | some (.pobj x) => rfl
  | some (.plist x) => rfl

theorem contains_append_singleton (l : List Item) (x u : Item) :
    (l ++ [x]).contains u = (l.contains u || u == x) := by
  induction l with
  | nil =>
    simp only [List.nil_append, List.contains_cons, List.contains_nil,
      Bool.or_false, Bool.false_or]
  | cons a t ih =>
    simp only [List.cons_append, List.contains_cons, ih, Bool.or_assoc]

theorem emitOne_ok_cases {env : Env} {pb pb2 : PageBuilder} {c : EmitCall}
    {o : String} (h : emitOne env pb c = .ok (pb2, o)) :
    (pb.resourceUrls.contains (resolvedUrl env (callRes c)) = true ∧
      pb2 = pb ∧ o = "") ∨
    (pb.resourceUrls.contains (resolvedUrl env (callRes c)) = false ∧
      pb2.resourceUrls = pb.resourceUrls ++ [resolvedUrl env (callRes c)]) := by
  cases c with
  | script r d a =>
    simp only [emitOne, buildScriptElement, callRes] at h ⊢
    cases hc : pb.resourceUrls.contains (resolvedUrl env r) with
    | true =>
      rw [hc] at h
      simp only [if_true, Except.ok.injEq, Prod.mk.injEq] at h
      exact Or.inl ⟨rfl, h.1.symm, h.2.symm⟩
    | false =>
      rw [hc] at h
      simp only [Bool.false_eq_true, if_false] at h
      cases ht : itemTruthy (resolvedUrl env r) with
      | false => rw [ht] at h; simp at h
      | true =>
        rw [ht] at h
        simp only [Bool.not_true, Bool.false_eq_true, if_false,
          Except.ok.injEq, Prod.mk.injEq] at h
        refine Or.inr ⟨rfl, ?_⟩
        rw [← h.1]
  | style r a =>
    simp only [emitOne, buildStyleLinkElement, callRes] at h ⊢
    cases hc : pb.resourceUrls.contains (resolvedUrl env r) with
    | true =>
      rw [hc] at h
      simp only [if_true, Except.ok.injEq, Prod.mk.injEq] at h
      exact Or.inl ⟨rfl, h.1.symm, h.2.symm⟩
    | false =>
      rw [hc] at h
      simp only [Bool.false_eq_true, if_false] at h
      cases ht : itemTruthy (resolvedUrl env r) with
      | false => rw [ht] at h; simp at h
      | true =>
        rw [ht] at h
        simp only [Bool.not_true, Bool.false_eq_true, if_false,
          Except.ok.injEq, Prod.mk.injEq] at h
        refine Or.inr ⟨rfl, ?_⟩
        rw [← h.1]

theorem exbind_ok {α β : Type} (a : α) (f : α → Except String β) :
    (Except.ok a : Except String α) >>= f = f a := rfl

theorem exbind_err {α β : Type} (e : String) (f : α → Except String β) :
    (Except.error e : Except String α) >>= f = Except.error e := rfl

theorem beq_symm_false {a b : Item} (h : (a == b) = false) : (b == a) = false := by
  cases hq : b == a with
  | false => rfl
  | true =>
    rw [eq_of_beq hq] at h
    simp at h

theorem urlCount_cons (v : Item) (o : String) (u : Item)
    (os : List (Item × String)) :
    urlCount u ((v, o) :: os) =
      urlCount u os + (if v == u && o != "" then 1 else 0) := by
  by_cases h : (v == u && o != "") = true
  · simp [urlCount, List.filter_cons, h]
  · simp only [Bool.not_eq_true] at h
    simp [urlCount, List.filter_cons, h]

theorem runEmits_ok_cons {env : Env} {pb pb' : PageBuilder} {c : EmitCall}
    {cs : List EmitCall} {outs : List (Item × String)}
    (h : runEmits env pb (c :: cs) = .ok (pb', outs)) :
    ∃ pb1 o os, emitOne env pb c = .ok (pb1, o) ∧
      runEmits env pb1 cs = .ok (pb', os) ∧
      outs = (resolvedUrl env (callRes c), o) :: os := by
  simp only [runEmits] at h
  cases h1 : emitOne env pb c with
  | error e =>
    rw [h1, exbind_err] at h
    exact absurd h (by simp)
  | ok x =>
    obtain ⟨pb1, o⟩ := x
    rw [h1, exbind_ok] at h
    cases h2 : runEmits env pb1 cs with
    | error e =>
      rw [h2, exbind_err] at h
      exact absurd h (by simp)
    | ok y =>
      obtain ⟨pb2, os⟩ := y
      rw [h2, exbind_ok] at h
      simp only [Except.ok.injEq, Prod.mk.injEq] at h
      exact ⟨pb1, o, os, rfl, by rw [h2, h.1], by rw [h.2]⟩

theorem runEmits_contained {env : Env} {pb pb' : PageBuilder}
    {calls : List EmitCall} {outs : List (Item × String)} {u : Item}
    (h : runEmits env pb calls = .ok (pb', outs))
    (hc : pb.resourceUrls.contains u = true) :
    urlCount u outs = 0 ∧ pb'.resourceUrls.contains u = true := by
  induction calls generalizing pb outs with
  | nil =>
    simp only [runEmits, Except.ok.injEq, Prod.mk.injEq] at h
    obtain ⟨h1, h2⟩ := h
    subst h1
    subst h2
    exact ⟨rfl, hc⟩
  | cons c cs ih =>
    obtain ⟨pb1, o, os, h1, h2, h3⟩ := runEmits_ok_cons h
    subst h3
    rcases emitOne_ok_cases h1 with ⟨_, hpb, ho⟩ | ⟨hout, hurls⟩
    · subst hpb
      subst ho
      obtain ⟨ihc, ihm⟩ := ih h2 hc
      rw [urlCount_cons]
      simp only [bne_self_eq_false, Bool.and_false, if_false, Nat.add_zero]
      exact ⟨ihc, ihm⟩
    · have hne : (resolvedUrl env (callRes c) == u) = false := by
        cases hq : resolvedUrl env (callRes c) == u with
        | false => rfl
        | true =>
          rw [eq_of_beq hq] at hout
          rw [hout] at hc
          exact absurd hc (by simp)
      have hc1 : pb1.resourceUrls.contains u = true := by
        rw [hurls, contains_append_singleton, hc, Bool.true_or]
      obtain ⟨ihc, ihm⟩ := ih h2 hc1
      rw [urlCount_cons]
      simp only [hne, Bool.false_and, if_false, Nat.add_zero]
      exact ⟨ihc, ihm⟩

theorem runEmits_dedup {env : Env} {pb pb' : PageBuilder}
    {calls : List EmitCall} {outs : List (Item × String)} {u : Item}
    (h : runEmits env pb calls = .ok (pb', outs)) :
    urlCount u outs ≤ 1 := by
  induction calls generalizing pb outs with
  | nil =>
    simp only [runEmits, Except.ok.injEq, Prod.mk.injEq] at h
    rw [← h.2]
    simp [urlCount]
  | cons c cs ih =>
    obtain ⟨pb1, o, os, h1, h2, h3⟩ := runEmits_ok_cons h
    subst h3
    cases hc : pb.resourceUrls.contains u with
    | true =>
      have h0 := (runEmits_contained h hc).1
      omega
    | false =>
      cases hq : resolvedUrl env (callRes c) == u with
      | false =>
        have htail := ih h2
        rw [urlCount_cons]
        simp only [hq, Bool.false_and, if_false, Nat.add_zero]
        exact htail
      | true =>
        rcases emitOne_ok_cases h1 with ⟨hin, _, _⟩ | ⟨_, hurls⟩
        · rw [eq_of_beq hq] at hin
          rw [hin] at hc
          exact absurd hc (by simp)
        · have hequ : resolvedUrl env (callRes c) = u := eq_of_beq hq
          have hc1 : pb1.resourceUrls.contains u = true := by
            rw [hurls, hequ, contains_append_singleton, hc, Bool.false_or]
            simp
          have htail := (runEmits_contained h2 hc1).1
          rw [urlCount_cons, htail]
          split <;> omega

theorem leadsWith_self_append (nd b : List Char) :
    leadsWith nd (nd ++ b) = true := by
  induction nd with
  | nil => rfl
  | cons c t ih => simp [leadsWith, ih]

theorem listHasSub_self_append (nd b : List Char) :
    listHasSub nd (nd ++ b) = true := by
  cases nd with
  | nil =>
    cases b with
    | nil => rfl
    | cons c t =>
      simp only [listHasSub, List.nil_append, Bool.or_eq_true]
      exact Or.inl rfl
  | cons c t =>
    simp only [listHasSub, List.cons_append, Bool.or_eq_true]
    exact Or.inl (leadsWith_self_append (c :: t) b)

theorem listHasSub_append_left {nd t : List Char} (s : List Char)
    (h : listHasSub nd t = true) : listHasSub nd (s ++ t) = true := by
  induction s with
  | nil => simpa using h
  | cons c cs ih =>
    simp only [List.cons_append, listHasSub, Bool.or_eq_true]
    exact Or.inr ih

theorem listHasSub_mid (a nd b : List Char) :
    listHasSub nd (a ++ (nd ++ b)) = true :=
  listHasSub_append_left a (listHasSub_self_append nd b)

theorem strHasSub_jsJoin_mem {x : String} {xs : List String} (sep : String)
    (hm : x ∈ xs) : strHasSub (jsJoin sep xs) x = true := by
  induction xs with
  | nil => cases hm
  | cons y ys ih =>
    cases ys with
    | nil =>
      rcases List.mem_cons.mp hm with he | hin
      · subst he
        unfold strHasSub jsJoin
        have := listHasSub_mid [] x.data []
        simpa using this
      · cases hin
    | cons z zs =>
      rcases List.mem_cons.mp hm with he | hin
      · subst he
        unfold strHasSub jsJoin
        rw [String.data_append, String.data_append]
        rw [List.append_assoc]
        exact listHasSub_mid [] x.data _ |>.symm ▸
          listHasSub_append_left [] (listHasSub_self_append x.data _)
      · have htail := ih hin
        unfold strHasSub jsJoin
        rw [String.data_append, String.data_append]
        rw [List.append_assoc]
        exact listHasSub_append_left _ (listHasSub_append_left _ htail)

theorem exbind_ok_destruct {α β : Type} {e : Except String α}
    {f : α → Except String β} {b : β} (h : e >>= f = .ok b) :
    ∃ a, e = .ok a ∧ f a = .ok b := by
  cases e with
  | error msg =>
    rw [exbind_err] at h
    exact absurd h (by simp)
  | ok a =>
    rw [exbind_ok] at h
    exact ⟨a, rfl, h⟩

theorem buildPrtlElement_module {env : Env} {pb pb2 : PageBuilder} {p : Prtl}
    {out : String} (h : buildPrtlElement env pb p = .ok (pb2, out)) :
    strHasSub out "<page-module>" = true := by
  simp only [buildPrtlElement] at h
  obtain ⟨x1, hx1, h⟩ := exbind_ok_destruct h
  obtain ⟨pb1, cssElems⟩ := x1
  obtain ⟨x2, hx2, h⟩ := exbind_ok_destruct h
  obtain ⟨pb2', jsElems⟩ := x2
  obtain ⟨htmlOpt, hx3, h⟩ := exbind_ok_destruct h
  simp only [Except.ok.injEq, Prod.mk.injEq] at h
  rw [← h.2]
  apply strHasSub_jsJoin_mem
  simp

theorem style_error {env : Env} {pb : PageBuilder} {r : Resource} {a : Bool}
    (hc : pb.resourceUrls.contains (resolvedUrl env r) = false)
    (ht : itemTruthy (resolvedUrl env r) = false) :
    buildStyleLinkElement env pb r a = Except.error (noUrlMsg r) := by
  simp only [buildStyleLinkElement, hc, ht, Bool.false_eq_true, if_false,
    Bool.not_false, if_true]

theorem script_error {env : Env} {pb : PageBuilder} {r : Resource}
    {d a : Bool}
    (hc : pb.resourceUrls.contains (resolvedUrl env r) = false)
    (ht : itemTruthy (resolvedUrl env r) = false) :
    buildScriptElement env pb r d a = Except.error (noUrlMsg r) := by
  simp only [buildScriptElement, hc, ht, Bool.false_eq_true, if_false,
    Bool.not_false, if_true]

/-! ## Claim C1 -/

/-- C1: during a single document build, every resource URL produces at most
one markup element across any sequence of script/stylesheet emissions
(whether declared in the global head configuration or by any partial), and
an emission whose resource resolves to an already-registered URL returns
the empty string and leaves the registry unchanged. -/
theorem c1_resource_dedup (env : Env) (pb : PageBuilder) :
    (∀ calls pb' outs u, runEmits env pb calls = Except.ok (pb', outs) →
      urlCount u outs ≤ 1 ∧
      (pb.resourceUrls.contains u = true → urlCount u outs = 0)) ∧
    (∀ r d a a2, pb.resourceUrls.contains (resolvedUrl env r) = true →
      buildScriptElement env pb r d a = Except.ok (pb, "") ∧
      buildStyleLinkElement env pb r a2 = Except.ok (pb, "")) := by
  constructor
  · intro calls pb' outs u h
    exact ⟨runEmits_dedup h, fun hc => (runEmits_contained h hc).1⟩
  · intro r d a a2 hc
    constructor
    · simp only [buildScriptElement, hc, if_true]
    · simp only [buildStyleLinkElement, hc, if_true]

/-- Witness for C1: the same stylesheet emitted twice from a fresh builder
produces its markup once and the empty string the second time. -/
theorem c1_resource_dedup_witness :
    runEmits sampleEnv samplePb c1calls = Except.ok (c1pb2, c1outs) ∧
    urlCount c1url c1outs ≤ 1 ∧
    buildStyleLinkElement sampleEnv c1pb2 c1res true = Except.ok (c1pb2, "") := by
  refine ⟨by rfl, ?_, ?_⟩
  · exact ((c1_resource_dedup sampleEnv samplePb).1 c1calls c1pb2 c1outs c1url
      (by rfl)).1
  · exact ((c1_resource_dedup sampleEnv c1pb2).2 c1res false false true
      (by decide)).2

/-! ## Claim C2 -/

/-- C2: a resource whose resolved URL is falsy and not already registered
makes both emitters throw the configuration error naming the resource, and
such an error among the configured head stylesheets propagates so the whole
document build fails. -/
theorem c2_configuration_error (env : Env) (pb : PageBuilder) :
    (∀ r d a a2,
      pb.resourceUrls.contains (resolvedUrl env r) = false →
      itemTruthy (resolvedUrl env r) = false →
      buildScriptElement env pb r d a = Except.error (noUrlMsg r) ∧
      buildStyleLinkElement env pb r a2 = Except.error (noUrlMsg r)) ∧
    (∀ u h r rest,
      pb.resourceUrls = [] →
      pb.doc.urlOpt = some u →
      pb.options.headOpt = some h →
      h.stylesheets = some (r :: rest) →
      itemTruthy (resolvedUrl env r) = false →
      buildDocument env pb = Except.error (noUrlMsg r)) := by
  constructor
  · intro r d a a2 hc ht
    exact ⟨script_error hc ht, style_error hc ht⟩
  · intro u h r rest hurls hu hh hs ht
    have hcon : pb.resourceUrls.contains (resolvedUrl env r) = false := by
      rw [hurls]
      rfl
    have hstyle := @style_error env pb r true hcon ht
    have hslot : styleSlot env pb = Except.error (noUrlMsg r) := by
      simp only [styleSlot, headOpts, hh, Option.getD_some, hs, emitStyleList,
        hstyle, exbind_err, Except.map]
    have hhead : buildHeadElement env pb = Except.error (noUrlMsg r) := by
      simp only [buildHeadElement, hu, hslot, exbind_err, exbind_ok]
    have hraw : rawDocumentHtml env pb = Except.error (noUrlMsg r) := by
      simp only [rawDocumentHtml, hhead, exbind_err]
    simp only [buildDocument, hraw, exbind_err]

/-- Witness for C2: a stylesheet declared as the empty string resolves to a
falsy URL and fails the whole document build with the configuration
error. -/
theorem c2_configuration_error_witness :
    itemTruthy (resolvedUrl sampleEnv (Resource.str "")) = false ∧
    buildDocument sampleEnv c2pb = Except.error (noUrlMsg (Resource.str "")) :=
  ⟨by decide,
    (c2_configuration_error sampleEnv c2pb).2
      ⟨"/index/", "https://example.com/index/"⟩ c2head (Resource.str "") []
      (by rfl) (by rfl) (by rfl) (by rfl) (by decide)⟩

/-! ## Claim C3 -/

/-- Counterexample to C3 as stated: the page defines the field "x" (its own
field mapping maps "x" to null), yet the resolver does not return the
page's own value — the `??` fallback treats the nullish page value as
absent and returns the collection's value instead. -/
theorem c3_counterexample :
    lookupF c3doc.fields "x" = some JSVal.null ∧
    getFieldValue c3doc "x" ≠ lookupF c3doc.fields "x" ∧
    getFieldValue c3doc "x" = some (JSVal.str "collection-value") := by
  refine ⟨by rfl, ?_, by rfl⟩
  intro h
  rw [show getFieldValue c3doc "x" = some (JSVal.str "collection-value") from rfl,
    show lookupF c3doc.fields "x" = some JSVal.null from rfl] at h
  cases h

/-- C3 (amended): the resolver returns the page's own field value when the
page defines it with a non-nullish value (in particular a value of boolean
`false` is returned as `false` and the collection is not consulted); a page
field that is absent or null falls back to the owning collection's value
for the same name, and to undefined when there is no collection or the
collection lacks the field. -/
theorem c3_field_fallback (doc : Document) (name : String) :
    (isJsNullishO (lookupF doc.fields name) = false →
      getFieldValue doc name = lookupF doc.fields name) ∧
    (lookupF doc.fields name = some (JSVal.bool false) →
      getFieldValue doc name = some (JSVal.bool false)) ∧
    (isJsNullishO (lookupF doc.fields name) = true →
      getFieldValue doc name =
        (match doc.collectionOpt with
         | some cf => lookupF cf name
         | none => none)) := by
  refine ⟨?_, ?_, ?_⟩
  · intro h
    unfold getFieldValue jsCoalesce
    match hv : lookupF doc.fields name with
    | none => rw [hv] at h; cases h
    | some .null => rw [hv] at h; cases h
    | some (.bool b) => rfl
    | some (.str s) => rfl
    | some (.num n) => rfl
    | some (.pobj o) => rfl
    | some (.plist ps) => rfl
  · intro h
    unfold getFieldValue jsCoalesce
    rw [h]
  · intro h
    unfold getFieldValue jsCoalesce
    match hv : lookupF doc.fields name with
    | none => rfl
    | some .null => rfl
    | some (.bool b) => rw [hv] at h; cases h
    | some (.str s) => rw [hv] at h; cases h
    | some (.num n) => rw [hv] at h; cases h
    | some (.pobj o) => rw [hv] at h; cases h
    | some (.plist ps) => rw [hv] at h; cases h

/-- Witness for C3 (amended): a page field set to `false` resolves to
`false` even though the collection carries a different value, and the null
page field of the counterexample document falls back to its collection. -/
theorem c3_field_fallback_witness :
    getFieldValue c3doc2 "header" = some (JSVal.bool false) ∧
    getFieldValue c3doc "x" = some (JSVal.str "collection-value") := by
  constructor
  · exact (c3_field_fallback c3doc2 "header").2.1 (by rfl)
  · have h := (c3_field_fallback c3doc "x").2.2 (by rfl)
    rw [h]
    rfl

/-! ## Claim C4 -/

/-- Counterexample to C4 as stated: the sample page's resolved `header`
field is not exactly false, yet the built document contains no header
module block at all (no `<page-module>` occurs anywhere in the assembled
markup), because the conventional header view file does not exist —
presence of the block is conditioned on the view file, not only on the
field. -/
theorem c4_counterexample :
    isJsFalse (getFieldValue samplePb.doc "header") = false ∧
    (rawDocumentHtml sampleEnv samplePb).map
      (fun x => strHasSub x.2 "<page-module>") = Except.ok false := by
  exact ⟨rfl, rfl⟩

/-- C4 (amended): the header (resp. footer) slot of the document is empty
whenever the page's resolved field is exactly false — the block is then
entirely absent — and also whenever the conventional view file does not
exist; when the field is not exactly false and the view file exists, a
successful build of the slot always contains the `<page-module>` module
block. -/
theorem c4_header_footer (env : Env) (pb : PageBuilder) (name : String) :
    (isJsFalse (getFieldValue pb.doc name) = true →
      builtinSlot env pb name = Except.ok (pb, "")) ∧
    (env.fileExists ("/views/partials/" ++ name ++ ".njk") = false →
      builtinSlot env pb name = Except.ok (pb, "")) ∧
    (isJsFalse (getFieldValue pb.doc name) = false →
      env.fileExists ("/views/partials/" ++ name ++ ".njk") = true →
      ∀ pb' out, builtinSlot env pb name = Except.ok (pb', out) →
        strHasSub out "<page-module>" = true) := by
  refine ⟨?_, ?_, ?_⟩
  · intro h
    simp only [builtinSlot, h, if_true]
  · intro h
    unfold builtinSlot
    split
    · rfl
    · unfold buildBuiltinPrtl
      simp only [h, Bool.false_eq_true, if_false]
  · intro hf hv pb' out h
    simp only [builtinSlot, hf, Bool.false_eq_true, if_false] at h
    simp only [buildBuiltinPrtl, hv, if_true] at h
    exact buildPrtlElement_module h

/-- Witness for C4 (amended): a page with `header: false` yields an empty
header slot; a page whose header view exists yields a header slot carrying
the module block. -/
theorem c4_header_footer_witness :
    builtinSlot sampleEnv c4pbF "header" = Except.ok (c4pbF, "") ∧
    builtinSlot c4env c4pb "header" =
      Except.ok (c4pb, "<page-module>\nRENDERED\n</page-module>") ∧
    strHasSub "<page-module>\nRENDERED\n</page-module>" "<page-module>" = true := by
  refine ⟨(c4_header_footer sampleEnv c4pbF "header").1 (by rfl), by rfl, ?_⟩
  exact (c4_header_footer c4env c4pb "header").2.2 (by rfl) (by rfl) c4pb
    "<page-module>\nRENDERED\n</page-module>" (by rfl)

/-! ## Claim C5 -/

/-- C5: for an asset resource carrying a fingerprint, when fingerprint
inclusion is not explicitly disabled and the URL path has no query string
the resolved href is the path with `?fingerprint=<value>` appended; when
the path already contains a query string the href is the path unchanged
(whatever the options say).  The same holds of the later `getUrl` stage for
an asset item with a truthy fingerprint. -/
theorem c5_fingerprint (env : Env) (u : Url') (fpv : String) (ex : Bool)
    (opt : Option GetHrefOptions) :
    (getHrefIncludeFp opt ≠ some false →
      u.path.data.contains '?' = false →
      getHrefFromResource (.staticFile ⟨some u, some fpv, ex⟩) opt =
        .str (u.path ++ "?fingerprint=" ++ fpv)) ∧
    (u.path.data.contains '?' = true →
      getHrefFromResource (.staticFile ⟨some u, some fpv, ex⟩) opt =
        .str u.path) ∧
    (fpv ≠ "" →
      u.path.data.contains '?' = false →
      getUrl env (.sfile ⟨some u, some fpv, ex⟩) ⟨none, none⟩ =
        .str (u.path ++ "?fingerprint=" ++ fpv)) ∧
    (u.path.data.contains '?' = true →
      getUrl env (.sfile ⟨some u, some fpv, ex⟩) ⟨none, none⟩ =
        .str u.path) := by
  refine ⟨?_, ?_, ?_, ?_⟩
  · intro h1 h2
    have hb : (getHrefIncludeFp opt != some false) = true := by
      simp only [bne_iff_ne, ne_eq]
      exact h1
    simp only [getHrefFromResource, Option.map, hb, optIncludesQ, h2,
      Bool.not_false, Bool.and_self, if_true, tmplOptStr]
  · intro h2
    simp only [getHrefFromResource, Option.map, optIncludesQ, h2,
      Bool.not_true, Bool.and_false, Bool.false_eq_true, if_false,
      optStrToItem]
  · intro h1 h2
    have h2' : '?' ∉ u.path.data := by simpa using h2
    simp [getUrl, Item.fingerprintProp, Item.urlProp, itemIncludesQ,
      strOptTruthy, h1, h2', itemTemplateStr]
  · intro h2
    have h2' : '?' ∈ u.path.data := by simpa using h2
    simp [getUrl, Item.fingerprintProp, Item.urlProp, itemIncludesQ, h2']

/-- Witness for C5: fingerprint "abc123" is appended to a clean path and
not appended to a path that already carries a query string. -/
theorem c5_fingerprint_witness :
    getHrefFromResource
      (.staticFile ⟨some ⟨"/main.css", "https://example.com/main.css"⟩,
        some "abc123", true⟩) none =
      .str ("/main.css" ++ "?fingerprint=" ++ "abc123") ∧
    getHrefFromResource
      (.staticFile ⟨some ⟨"/main.css?v=2", "https://example.com/main.css?v=2"⟩,
        some "abc123", true⟩) none =
      .str "/main.css?v=2" :=
  ⟨(c5_fingerprint sampleEnv ⟨"/main.css", "https://example.com/main.css"⟩
      "abc123" true none).1 (by decide) (by decide),
   (c5_fingerprint sampleEnv ⟨"/main.css?v=2", "https://example.com/main.css?v=2"⟩
      "abc123" true none).2.1 (by decide)⟩

/-! ## Claim C6 -/

theorem strHasSub_decomp (a nd b : String) :
    strHasSub (a ++ (nd ++ b)) nd = true := by
  unfold strHasSub
  rw [String.data_append, String.data_append]
  exact listHasSub_mid a.data nd.data b.data

/-- C6: the canonical link is emitted exactly when the page has a
resolvable URL; the `x-default` alternate link is emitted exactly when the
default-locale sibling's URL resolves truthy; and one hreflang alternate
link per configured non-default locale is emitted, in the iteration order
of the page's locale set, each carrying that locale's `hreflang` value and
its sibling URL. -/
theorem c6_hreflang_block (env : Env) (doc : Document) :
    (∀ u, doc.urlOpt = some u →
      canonicalSlot doc = "<link href=\"" ++ u.full ++ "\" rel=\"canonical\">") ∧
    (doc.urlOpt = none → canonicalSlot doc = "") ∧
    (itemTruthy (siblingUrl env doc doc.defaultLocale) = false →
      xdefaultSlot env doc = "") ∧
    (itemTruthy (siblingUrl env doc doc.defaultLocale) = true →
      xdefaultSlot env doc =
        "<link href=\"" ++ itemTemplateStr (siblingUrl env doc doc.defaultLocale) ++
          "\" hreflang=\"x-default\" rel=\"alternate\">") ∧
    ((hreflangLocaleLinks env doc).length =
      (doc.locales.filter (fun l => l != doc.defaultLocale)).length) ∧
    (∀ i, (hreflangLocaleLinks env doc).get? i =
      ((doc.locales.filter (fun l => l != doc.defaultLocale)).get? i).map
        (localeLinkFor env doc)) ∧
    (∀ l, strHasSub (localeLinkFor env doc l)
        ("hreflang=\"" ++ getHtmlLang l ++ "\"") = true) ∧
    (buildHreflangLinkElements env doc =
      tpl6 [canonicalSlot doc, xdefaultSlot env doc,
        jsJoin "\n" (hreflangLocaleLinks env doc)]) := by
  refine ⟨?_, ?_, ?_, ?_, ?_, ?_, ?_, rfl⟩
  · intro u hu
    simp [canonicalSlot, hu]
  · intro hu
    simp [canonicalSlot, hu]
  · intro h
    simp [xdefaultSlot, h]
  · intro h
    simp [xdefaultSlot, h]
  · simp [hreflangLocaleLinks]
  · intro i
    simp [hreflangLocaleLinks]
  · intro l
    have hsplit : localeLinkFor env doc l =
        ("<link href=\"" ++ itemTemplateStr (siblingUrl env doc l) ++ "\" ") ++
          (("hreflang=\"" ++ getHtmlLang l ++ "\"") ++ " rel=\"alternate\">") := by
      simp only [localeLinkFor,
        show ("\" hreflang=\"" : String) = "\" " ++ "hreflang=\"" from rfl,
        show ("\" rel=\"alternate\">" : String) = "\"" ++ " rel=\"alternate\">" from rfl,
        String.append_assoc]
    rw [hsplit]
    exact strHasSub_decomp _ _ _

/-- Witness for C6: on the sample document the canonical link is emitted,
the `x-default` link is emitted for the resolvable default sibling, and
exactly one alternate link (for `de_DE`) is emitted. -/
theorem c6_hreflang_block_witness :
    canonicalSlot sampleDoc =
      "<link href=\"" ++ "https://example.com/index/" ++ "\" rel=\"canonical\">" ∧
    (hreflangLocaleLinks sampleEnv sampleDoc).length =
      (sampleDoc.locales.filter (fun l => l != sampleDoc.defaultLocale)).length ∧
    (hreflangLocaleLinks sampleEnv sampleDoc).length = 1 ∧
    strHasSub (localeLinkFor sampleEnv sampleDoc ⟨"de_DE"⟩)
      ("hreflang=\"" ++ getHtmlLang ⟨"de_DE"⟩ ++ "\"") = true ∧
    itemTruthy (siblingUrl sampleEnv sampleDoc sampleDoc.defaultLocale) = true := by
  refine ⟨?_, ?_, by rfl, ?_, by rfl⟩
  · exact (c6_hreflang_block sampleEnv sampleDoc).1
      ⟨"/index/", "https://example.com/index/"⟩ (by rfl)
  · exact (c6_hreflang_block sampleEnv sampleDoc).2.2.2.2.1
  · exact (c6_hreflang_block sampleEnv sampleDoc).2.2.2.2.2.2.1 ⟨"de_DE"⟩

/-! ## Claim C7 -/

theorem runPrtls_ok_cons {env : Env} {pb pb' : PageBuilder} {p : Prtl}
    {ps : List Prtl} {os : List String}
    (h : runPrtls env pb (p :: ps) = .ok (pb', os)) :
    ∃ pb1 o os', buildPrtlElement env pb p = .ok (pb1, o) ∧
      runPrtls env pb1 ps = .ok (pb', os') ∧ os = o :: os' := by
  simp only [runPrtls] at h
  cases h1 : buildPrtlElement env pb p with
  | error e =>
    rw [h1, exbind_err] at h
    exact absurd h (by simp)
  | ok x =>
    obtain ⟨pb1, o⟩ := x
    rw [h1, exbind_ok] at h
    cases h2 : runPrtls env pb1 ps with
    | error e =>
      rw [h2, exbind_err] at h
      exact absurd h (by simp)
    | ok y =>
      obtain ⟨pb2, os'⟩ := y
      rw [h2, exbind_ok] at h
      simp only [Except.ok.injEq, Prod.mk.injEq] at h
      exact ⟨pb1, o, os', rfl, by rw [h2, h.1], by rw [h.2]⟩

theorem runPrtls_spec {env : Env} {pb pb' : PageBuilder} {ps : List Prtl}
    {os : List String} (h : runPrtls env pb ps = .ok (pb', os)) :
    os.length = ps.length ∧
    ∀ i (h1 : i < ps.length) (h2 : i < os.length),
      ∃ q q', buildPrtlElement env q (ps.get ⟨i, h1⟩) =
        Except.ok (q', os.get ⟨i, h2⟩) := by
  induction ps generalizing pb os with
  | nil =>
    simp only [runPrtls, Except.ok.injEq, Prod.mk.injEq] at h
    rw [← h.2]
    exact ⟨rfl, fun i h1 _ => absurd h1 (by simp)⟩
  | cons p ps ih =>
    obtain ⟨pb1, o, os', h1, h2, h3⟩ := runPrtls_ok_cons h
    subst h3
    obtain ⟨ihlen, ihidx⟩ := ih h2
    refine ⟨by simp [ihlen], ?_⟩
    intro i hi1 hi2
    cases i with
    | zero => exact ⟨pb, pb1, h1⟩
    | succ j =>
      exact ihidx j (Nat.lt_of_succ_lt_succ hi1) (Nat.lt_of_succ_lt_succ hi2)

/-- C7: a successful rendering of the page's partial descriptor list
produces exactly one output fragment per descriptor, the i-th fragment
being a rendering of the i-th descriptor; the content slot joins the
fragments in original list order, and an absent `partials` field yields an
empty content slot with no module blocks. -/
theorem c7_content_order (env : Env) (pb : PageBuilder) :
    (∀ ps pb' os, runPrtls env pb ps = Except.ok (pb', os) →
      os.length = ps.length ∧
      ∀ i (h1 : i < ps.length) (h2 : i < os.length),
        ∃ q q', buildPrtlElement env q (ps.get ⟨i, h1⟩) =
          Except.ok (q', os.get ⟨i, h2⟩)) ∧
    (docPrtlsVal pb.doc = none → contentSlot env pb = Except.ok (pb, "")) ∧
    (∀ ps pb' os, docPrtlsVal pb.doc = some (JSVal.plist ps) →
      runPrtls env pb ps = Except.ok (pb', os) →
      contentSlot env pb = Except.ok (pb', jsJoin "\n" os)) := by
  refine ⟨fun ps pb' os h => runPrtls_spec h, ?_, ?_⟩
  · intro hv
    simp only [contentSlot, hv, exbind_ok, runPrtls]
    rfl
  · intro ps pb' os hv h
    simp only [contentSlot, hv, exbind_ok, h]

/-- Witness for C7: two named partials render to two module blocks, joined
in list order by the content slot. -/
theorem c7_content_order_witness :
    runPrtls sampleEnv c7pb [c7p1, c7p2] = Except.ok (c7pb, [c7out1, c7out1]) ∧
    ([c7out1, c7out1] : List String).length = ([c7p1, c7p2] : List Prtl).length ∧
    contentSlot sampleEnv c7pb = Except.ok (c7pb, jsJoin "\n" [c7out1, c7out1]) := by
  refine ⟨by rfl, ?_, ?_⟩
  · exact ((c7_content_order sampleEnv c7pb).1 [c7p1, c7p2] c7pb
      [c7out1, c7out1] (by rfl)).1
  · exact (c7_content_order sampleEnv c7pb).2.2 [c7p1, c7p2] c7pb
      [c7out1, c7out1] (by rfl) (by rfl)

/-! ## Claim C8 -/

/-- Counterexample to C8 as stated: with beautification explicitly
disabled, the build succeeds but its output still contains whitespace-only
lines — the blank-line strip does not run, because `buildDocument` returns
the raw markup before the strip when `options.beautify === false`. -/
theorem c8_counterexample :
    c8pb.options.beautify = some false ∧
    (buildDocument sampleEnv c8pb).map
      (fun s => stripBlankLines s == s) = Except.ok false := by
  exact ⟨rfl, rfl⟩

/-- C8 (amended): when beautification is explicitly disabled the trimmed
markup is returned unchanged, without blank-line stripping; otherwise the
whitespace-only lines are stripped and the result is reformatted by the
beautifier with indent size 2. -/
theorem c8_postprocess (env : Env) (pb : PageBuilder) :
    (pb.options.beautify = some false →
      buildDocument env pb = (rawDocumentHtml env pb).map (fun x => x.2)) ∧
    (pb.options.beautify ≠ some false →
      buildDocument env pb =
        (rawDocumentHtml env pb).map
          (fun x => env.beautifyHtml 2 (stripBlankLines x.2))) := by
  constructor
  · intro h
    unfold buildDocument
    cases hr : rawDocumentHtml env pb with
    | error e => rfl
    | ok x =>
      obtain ⟨pb1, html⟩ := x
      rw [exbind_ok]
      simp [h, Except.map]
  · intro h
    have hb : (pb.options.beautify == some false) = false := by
      simpa using h
    unfold buildDocument
    cases hr : rawDocumentHtml env pb with
    | error e => rfl
    | ok x =>
      obtain ⟨pb1, html⟩ := x
      rw [exbind_ok]
      simp [hb, Except.map]

/-- Witness for C8 (amended): the disabled-beautification builder returns
the raw markup; the default builder strips blank lines and beautifies. -/
theorem c8_postprocess_witness :
    c8pb.options.beautify = some false ∧
    buildDocument sampleEnv c8pb = (rawDocumentHtml sampleEnv c8pb).map (fun x => x.2) ∧
    samplePb.options.beautify ≠ some false ∧
    buildDocument sampleEnv samplePb =
      (rawDocumentHtml sampleEnv samplePb).map
        (fun x => sampleEnv.beautifyHtml 2 (stripBlankLines x.2)) := by
  refine ⟨rfl, (c8_postprocess sampleEnv c8pb).1 rfl, by decide,
    (c8_postprocess sampleEnv samplePb).2 (by decide)⟩

/-! ## Claim C9 -/

/-- C9: when the conventional CSS and JS assets for a named partial do not
exist, rendering the partial succeeds (no error is raised for the missing
assets), no stylesheet/script markup is emitted, and the output is exactly
the module boundary block around the optional inspector marker and the
rendered template content. -/
theorem c9_missing_asset (env : Env) (pb : PageBuilder) (s r : String)
    (p : Prtl) :
    p.key = .str s →
    (env.staticFile (env.interp pb.prtlPaths.css (.byName (some s)))).exists' = false →
    (env.staticFile (env.interp pb.prtlPaths.js (.byName (some s)))).exists' = false →
    env.render (env.interp pb.prtlPaths.view (.byDesc p)) p = Except.ok r →
    buildPrtlElement env pb p = Except.ok (pb, jsJoin "\n"
      (["<page-module>"] ++ inspElems pb p ++ [r] ++ ["</page-module>"])) ∧
    strHasSub (jsJoin "\n"
      (["<page-module>"] ++ inspElems pb p ++ [r] ++ ["</page-module>"]))
      "<page-module>" = true := by
  intro hk hcss hjs hr
  constructor
  · simp only [buildPrtlElement, emitExistsStyle, emitExistsScript,
      renderPrtlHtml, hk, keyName, isStrKey, hcss, hjs, Bool.false_eq_true,
      if_false, if_true, hr, Except.map, exbind_ok, Option.getD]
    simp
  · apply strHasSub_jsJoin_mem
    simp

/-- Witness for C9: the sample partial "hero" with no conventional assets
renders to a bare module block containing the engine's output. -/
theorem c9_missing_asset_witness :
    buildPrtlElement sampleEnv samplePb c7p1 = Except.ok (samplePb, jsJoin "\n"
      (["<page-module>"] ++ inspElems samplePb c7p1 ++ ["RENDERED"] ++
        ["</page-module>"])) ∧
    jsJoin "\n" (["<page-module>"] ++ inspElems samplePb c7p1 ++ ["RENDERED"] ++
      ["</page-module>"]) = "<page-module>\nRENDERED\n</page-module>" := by
  refine ⟨((c9_missing_asset sampleEnv samplePb "hero" "RENDERED" c7p1
    (by rfl) (by rfl) (by rfl) (by rfl)).1), by rfl⟩

/-! ## Claim C10 -/

/-- C10: a descriptor whose `partial` property is neither a string nor an
object with a truthy `absolutePath` renders without error: with no
conventional assets the output is exactly the opening and closing module
boundary markers (plus the inspector marker when enabled) with an empty
line in between — neither rendering branch is taken and the undefined
`html` joins as an empty string. -/
theorem c10_invalid_key (env : Env) (pb : PageBuilder) (p : Prtl) :
    isStrKey p.key = false →
    absPathTruthy p.key = false →
    (env.staticFile (env.interp pb.prtlPaths.css (.byName (keyName p.key)))).exists' = false →
    (env.staticFile (env.interp pb.prtlPaths.js (.byName (keyName p.key)))).exists' = false →
    buildPrtlElement env pb p = Except.ok (pb, jsJoin "\n"
      (["<page-module>"] ++ inspElems pb p ++ [""] ++ ["</page-module>"])) := by
  intro hs ha hcss hjs
  simp only [buildPrtlElement, emitExistsStyle, emitExistsScript,
    renderPrtlHtml, hs, ha, hcss, hjs, Bool.false_eq_true, if_false,
    exbind_ok, Option.getD]
  simp

/-- Witness for C10: the undefined-key descriptor yields the module
boundary markers around an empty line, with no error. -/
theorem c10_invalid_key_witness :
    buildPrtlElement sampleEnv samplePb c10p = Except.ok (samplePb, jsJoin "\n"
      (["<page-module>"] ++ inspElems samplePb c10p ++ [""] ++
        ["</page-module>"])) ∧
    jsJoin "\n" (["<page-module>"] ++ inspElems samplePb c10p ++ [""] ++
      ["</page-module>"]) = "<page-module>\n\n</page-module>" := by
  refine ⟨c10_invalid_key sampleEnv samplePb c10p (by rfl) (by rfl) (by rfl)
    (by rfl), by rfl⟩
